import Mathlib

/-!
Verification of the process-termination and worker-spawn core of stress-ng
(`core-killpid.c`, and the fork loops / child branches of `stress-udp.c`,
`stress-rawpkt.c`, `stress-pipe.c`, `stress-flock.c`).

The C functions are embedded shallowly: each OS interaction (waitpid, kill,
fork, pidfd_open, ...) is driven by an explicit input record describing the
result the OS would return, and each function produces the list of observable
events it performs, in order, together with its outcome.  Machine pids are
modelled as `Int` (pid_t is signed), errno values as `Nat`.
-/

namespace StressNG

/-- Linux errno values used by the embedded code. -/
def EPERM : Nat := 1
/-- errno ESRCH: no such process. -/
def ESRCH : Nat := 3
/-- errno EINTR: interrupted system call. -/
def EINTR : Nat := 4
/-- errno ECHILD: no child processes. -/
def ECHILD : Nat := 10
/-- errno EAGAIN: resource temporarily unavailable. -/
def EAGAIN : Nat := 11
/-- errno ENOMEM: out of memory. -/
def ENOMEM : Nat := 12

/-- Observable actions performed by the embedded C code, in program order. -/
inductive Event where
  /-- `pr_inf` warning in `stress_kill_and_wait` for a protected pid. -/
  | warn (pid : Int)
  /-- `kill(pid, signum)` delivering a signal. -/
  | kill (pid : Int) (signum : Int)
  /-- `waitpid(pid, &wstatus, 0)`: a blocking reap attempt. -/
  | waitpid (pid : Int)
  /-- `kill(pid, 0)`: the liveness probe with the no-op signal. -/
  | probe (pid : Int)
  /-- `force_killed_counter(args)`: the forced-kill diagnostic counter bump. -/
  | forceCounter
  /-- a call of `stress_killpid(pid)` from the reap loop. -/
  | forcedKill (pid : Int)
  /-- `shim_pidfd_open(pid, 0)` inside `stress_killpid`. -/
  | pidfdOpen (pid : Int)
  /-- `kill(pid, SIGKILL)` inside `stress_killpid`. -/
  | sigkill (pid : Int)
  /-- `shim_process_mrelease(pidfd, 0)` inside `stress_killpid`. -/
  | mrelease
  /-- `close(pidfd)` inside `stress_killpid`. -/
  | closeFd
  /-- `shim_sched_yield()` between reap retries. -/
  | yieldSched
  /-- `sleep(1)` back-off between reap retries. -/
  | sleep1
  /-- `fork()` attempt in a spawn loop. -/
  | forkCall
  /-- `pr_fail` failure diagnostic in a spawn loop. -/
  | prFail
  /-- `stress_parent_died_alarm()` in a child branch. -/
  | parentDiedAlarm
  /-- `sched_settings_apply(true)` in a child branch. -/
  | schedApply
  /-- `stress_read_fdinfo` in the pipe child. -/
  | readFdinfo
  /-- closing an inherited descriptor in a child branch. -/
  | closeInherited
  /-- the stressor's payload work loop in a child branch. -/
  | payload
  deriving DecidableEq, Repr

/-- OS results for one iteration of the reap loop of
`stress_wait_until_reaped` (core-killpid.c:63-91): the outcome of the
`waitpid` call (`none` = success, `some e` = failed with errno `e`), the
outcome of the liveness probe `kill(pid, 0)`, and the value of
`keep_stressing_flag()` at this iteration. -/
structure ReapIn where
  waitErr : Option Nat
  probeErr : Option Nat
  flag : Bool
  deriving DecidableEq, Repr

/-- How the reap loop ended. -/
inductive ReapOut where
  /-- the `break` at core-killpid.c:70: `waitpid` succeeded or failed with an
  errno other than `EINTR`; the target's status is resolved. -/
  | resolved
  /-- the `return` at core-killpid.c:73: the liveness probe failed with
  `ESRCH`, the target no longer exists and is treated as reaped. -/
  | gone
  /-- the supplied list of OS results was exhausted with the loop still
  running (the C loop would continue waiting). -/
  | fuelOut
  deriving DecidableEq, Repr

/-- Events of the escalation branch of the reap loop (core-killpid.c:80-87):
when `keep_stressing_flag()` is false, re-deliver the original signal, and
once the interruption count exceeds 120 also bump the forced-kill counter
(when enabled) and call `stress_killpid`. -/
def escEvents (pid signum : Int) (sc : Bool) (cnt : Nat) (flag : Bool) : List Event :=
  if flag then []
  else Event.kill pid signum ::
    (if 120 < cnt then (if sc then [Event.forceCounter] else []) ++ [Event.forcedKill pid]
     else [])

/-- Events of the back-off at the bottom of the reap loop
(core-killpid.c:88-90): yield, and sleep one second once the interruption
count exceeds 10. -/
def pauseEvents (cnt : Nat) : List Event :=
  Event.yieldSched :: (if 10 < cnt then [Event.sleep1] else [])

/-- Shallow embedding of `stress_wait_until_reaped` (core-killpid.c:55-92).
`cnt` is the consecutive-EINTR counter (`count` in the C source, starts at 0);
the list supplies the OS results of successive iterations. -/
def waitUntilReaped (pid signum : Int) (sc : Bool) :
    Nat → List ReapIn → List Event × ReapOut
  | _, [] => ([], ReapOut.fuelOut)
  | cnt, i :: rest =>
    match i.waitErr with
    | none => ([Event.waitpid pid], ReapOut.resolved)
    | some we =>
      if we = EINTR then
        if i.probeErr = some ESRCH then
          ([Event.waitpid pid, Event.probe pid], ReapOut.gone)
        else
          let r := waitUntilReaped pid signum sc (cnt + 1) rest
          (Event.waitpid pid :: Event.probe pid ::
            (escEvents pid signum sc (cnt + 1) i.flag ++ pauseEvents (cnt + 1) ++ r.1),
           r.2)
      else ([Event.waitpid pid], ReapOut.resolved)

/-- How `stress_kill_and_wait` ended. -/
inductive KWOut where
  /-- the early `return` at core-killpid.c:111: the pid was protected. -/
  | guarded
  /-- the reap loop was entered and ended with the given outcome. -/
  | reap (o : ReapOut)
  deriving DecidableEq, Repr

/-- Shallow embedding of `stress_kill_and_wait` (core-killpid.c:98-115).
`mypid` is the caller's `getpid()` result. -/
def stress_kill_and_wait (mypid pid signum : Int) (sc : Bool) (ins : List ReapIn) :
    List Event × KWOut :=
  let w : List Event :=
    if pid = 0 ∨ pid = 1 ∨ pid = mypid then [Event.warn pid] else []
  if pid ≤ 1 ∨ pid = mypid then (w, KWOut.guarded)
  else
    let r := waitUntilReaped pid signum sc 0 ins
    (w ++ Event.kill pid signum :: r.1, KWOut.reap r.2)

/-- The per-element guard of `stress_kill_and_wait_many`
(core-killpid.c:135,140): the pid is signalled/reaped only when it is
greater than 1 and not the caller's own pid. -/
def eligible (mypid p : Int) : Prop := 1 < p ∧ p ≠ mypid

instance (mypid p : Int) : Decidable (eligible mypid p) := by
  unfold eligible; infer_instance

/-- Shallow embedding of `stress_kill_and_wait_many` (core-killpid.c:123-143):
a first pass delivering `signum` to every eligible pid, then a second pass
calling `stress_kill_and_wait` on every eligible pid, in list order.  `ins`
supplies the reap-loop OS results for each pid. -/
def stress_kill_and_wait_many (mypid : Int) (pids : List Int) (signum : Int)
    (sc : Bool) (ins : Int → List ReapIn) : List Event :=
  (pids.flatMap fun p => if eligible mypid p then [Event.kill p signum] else []) ++
  (pids.flatMap fun p =>
    if eligible mypid p then (stress_kill_and_wait mypid p signum sc (ins p)).1 else [])

/-- The pids targeted by the blocking reap calls of a trace, in order. -/
def waitTargets (t : List Event) : List Int :=
  t.filterMap fun e => match e with | Event.waitpid p => some p | _ => none

/-- OS results consumed by one run of `stress_killpid` (core-killpid.c:27-49):
the descriptor returned by `shim_pidfd_open` (negative on failure), the return
value of `kill(pid, SIGKILL)`, the errno left by that kill, and the errno that
`shim_process_mrelease` / `close` would leave behind. -/
structure KillpidIn where
  pidfd : Int
  killRet : Int
  killErrno : Nat
  mreleaseErrno : Nat
  closeErrno : Nat
  deriving DecidableEq, Repr

/-- Result of `stress_killpid`: its return value, the errno visible to the
caller afterwards, and the trace of OS actions performed. -/
structure KillpidRes where
  ret : Int
  errno : Nat
  trace : List Event
  deriving DecidableEq, Repr

/-- Shallow embedding of `stress_killpid` (core-killpid.c:27-49), Linux branch
with `__NR_process_release` available: open a pidfd, send `SIGKILL`, and when
the pidfd is valid save the kill's errno, call `shim_process_mrelease` only if
the kill returned 0, close the pidfd, and restore the saved errno; the kill's
return value is returned either way. -/
def stress_killpid (pid : Int) (inp : KillpidIn) : KillpidRes :=
  let tr0 : List Event := [Event.pidfdOpen pid, Event.sigkill pid]
  if 0 ≤ inp.pidfd then
    let saved_errno := inp.killErrno
    let relTrace : List Event := if inp.killRet = 0 then [Event.mrelease] else []
    -- errno is inp.mreleaseErrno / inp.closeErrno transiently inside the
    -- block, but the C code restores saved_errno before returning
    { ret := inp.killRet,
      errno := saved_errno,
      trace := tr0 ++ relTrace ++ [Event.closeFd] }
  else
    { ret := inp.killRet, errno := inp.killErrno, trace := tr0 }

/-- OS result of one `fork()` attempt in a spawn loop: the returned value
(negative on failure, 0 in the child, the child's pid in the parent), the
errno on failure, and the continue flag (`keep_stressing_flag()` /
`keep_stressing(args)`) at that point. -/
structure ForkIn where
  ret : Int
  errno : Nat
  flag : Bool
  deriving DecidableEq, Repr

/-- How a spawn loop ended. -/
inductive SpawnOut where
  /-- `fork()` returned 0: the child branch runs. -/
  | child
  /-- `fork()` returned a positive pid: the parent branch runs. -/
  | parent (pid : Int)
  /-- the fatal path: `pr_fail` followed by an `EXIT_FAILURE` return,
  carrying the OS errno of the failed fork. -/
  | failed (errno : Nat)
  /-- the rawpkt clean-abandonment path: `rc = EXIT_SUCCESS; goto finish`
  with no diagnostic. -/
  | cleanAbort
  /-- the supplied list of fork results was exhausted mid-retry. -/
  | exhausted
  deriving DecidableEq, Repr

/-- Child-branch actions of `stress_udp_client` (stress-udp.c:110-127):
`stress_parent_died_alarm()`, `sched_settings_apply(true)`, then the
socket work loop. -/
def udpClientActions : List Event :=
  [Event.parentDiedAlarm, Event.schedApply, Event.payload]

/-- Child-branch actions of `stress_rawpkt_client` (stress-rawpkt.c:290-291
onward): `stress_parent_died_alarm()`, `sched_settings_apply(true)`, then the
packet work. -/
def rawpktClientActions : List Event :=
  [Event.parentDiedAlarm, Event.schedApply, Event.payload]

/-- Child-branch actions of `stress_pipe` (stress-pipe.c:182-197):
`stress_parent_died_alarm()`, `sched_settings_apply(true)`,
`stress_read_fdinfo`, closing the write end, then the read loop. -/
def pipeChildActions : List Event :=
  [Event.parentDiedAlarm, Event.schedApply, Event.readFdinfo,
   Event.closeInherited, Event.payload]

/-- Child-branch actions of `stress_flock` workers (stress-flock.c:291-296):
`stress_parent_died_alarm()`, `sched_settings_apply(true)`, then
`stress_flock_child`. -/
def flockChildActions : List Event :=
  [Event.parentDiedAlarm, Event.schedApply, Event.payload]

/-- Shallow embedding of the fork/retry loop of `stress_udp`
(stress-udp.c:472-493): on a failed fork, retry only when
`keep_stressing_flag()` holds and errno is `EAGAIN`; otherwise `pr_fail` and
return `EXIT_FAILURE`.  On success the child runs `stress_udp_client`. -/
def udpForkLoop : List ForkIn → List Event × SpawnOut
  | [] => ([], SpawnOut.exhausted)
  | a :: rest =>
    if a.ret < 0 then
      if a.flag ∧ a.errno = EAGAIN then
        let r := udpForkLoop rest
        (Event.forkCall :: r.1, r.2)
      else (Event.forkCall :: [Event.prFail], SpawnOut.failed a.errno)
    else if a.ret = 0 then (Event.forkCall :: udpClientActions, SpawnOut.child)
    else ([Event.forkCall], SpawnOut.parent a.ret)

/-- Modelled from the spec: `stress_redo_fork` is called by
stress-rawpkt.c:526 and stress-pipe.c:172 but its definition is not among the
provided sources.  Per spec §4.2 the spawner retries when the failure
"indicates transient resource exhaustion (e.g., temporarily out of process
table slots or memory)" and only while `shouldContinue()` still holds. -/
def stress_redo_fork (flag : Bool) (errno : Nat) : Bool :=
  flag && ((errno == EAGAIN) || (errno == ENOMEM))

/-- Shallow embedding of the fork/retry loop of `stress_rawpkt`
(stress-rawpkt.c:523-543): on a failed fork, retry while `stress_redo_fork`
says so; otherwise, if `keep_stressing(args)` is now false, abandon with
`rc = EXIT_SUCCESS` and no diagnostic; otherwise `pr_fail` and return the
failure.  On success the child runs `stress_rawpkt_client`. -/
def rawpktForkLoop : List ForkIn → List Event × SpawnOut
  | [] => ([], SpawnOut.exhausted)
  | a :: rest =>
    if a.ret < 0 then
      if stress_redo_fork a.flag a.errno then
        let r := rawpktForkLoop rest
        (Event.forkCall :: r.1, r.2)
      else if a.flag = false then ([Event.forkCall], SpawnOut.cleanAbort)
      else (Event.forkCall :: [Event.prFail], SpawnOut.failed a.errno)
    else if a.ret = 0 then (Event.forkCall :: rawpktClientActions, SpawnOut.child)
    else ([Event.forkCall], SpawnOut.parent a.ret)

/-! Helper lemmas about the traces of the reap loop. -/

lemma mem_escEvents {e : Event} {pid signum : Int} {sc : Bool} {cnt : Nat} {flag : Bool}
    (h : e ∈ escEvents pid signum sc cnt flag) :
    e = Event.kill pid signum ∨ e = Event.forceCounter ∨ e = Event.forcedKill pid := by
  unfold escEvents at h
  split_ifs at h <;> simp at h <;> tauto

lemma mem_pauseEvents {e : Event} {cnt : Nat} (h : e ∈ pauseEvents cnt) :
    e = Event.yieldSched ∨ e = Event.sleep1 := by
  unfold pauseEvents at h
  split_ifs at h <;> simp at h <;> tauto

lemma mem_waitUntilReaped_trace (pid signum : Int) (sc : Bool) :
    ∀ (ins : List ReapIn) (cnt : Nat) (e : Event),
      e ∈ (waitUntilReaped pid signum sc cnt ins).1 →
      e = Event.waitpid pid ∨ e = Event.probe pid ∨ e = Event.kill pid signum ∨
      e = Event.forceCounter ∨ e = Event.forcedKill pid ∨
      e = Event.yieldSched ∨ e = Event.sleep1 := by
  intro ins
  induction ins with
  | nil => intro cnt e he; simp [waitUntilReaped] at he
  | cons i rest ih =>
    intro cnt e he
    obtain ⟨waitErr, probeErr, flag⟩ := i
    cases waitErr with
    | none =>
      simp [waitUntilReaped] at he; simp [he]
    | some we =>
      by_cases h1 : we = EINTR
      · by_cases h2 : probeErr = some ESRCH
        · simp [waitUntilReaped, h1, h2] at he
          rcases he with h | h <;> simp [h]
        · simp [waitUntilReaped, h1, h2] at he
          rcases he with h | h | h | h | h
          · simp [h]
          · simp [h]
          · rcases mem_escEvents h with h' | h' | h' <;> simp [h']
          · rcases mem_pauseEvents h with h' | h' <;> simp [h']
          · exact ih (cnt + 1) e h
      · simp [waitUntilReaped, h1] at he; simp [he]

lemma waitpid_mem_waitUntilReaped {q pid signum : Int} {sc : Bool} {cnt : Nat}
    {ins : List ReapIn} (h : Event.waitpid q ∈ (waitUntilReaped pid signum sc cnt ins).1) :
    q = pid := by
  rcases mem_waitUntilReaped_trace pid signum sc ins cnt _ h with
    h' | h' | h' | h' | h' | h' | h' <;> simp_all

lemma kill_mem_waitUntilReaped {q s pid signum : Int} {sc : Bool} {cnt : Nat}
    {ins : List ReapIn} (h : Event.kill q s ∈ (waitUntilReaped pid signum sc cnt ins).1) :
    q = pid ∧ s = signum := by
  rcases mem_waitUntilReaped_trace pid signum sc ins cnt _ h with
    h' | h' | h' | h' | h' | h' | h' <;> simp_all

lemma warn_not_mem_waitUntilReaped {q pid signum : Int} {sc : Bool} {cnt : Nat}
    {ins : List ReapIn} (h : Event.warn q ∈ (waitUntilReaped pid signum sc cnt ins).1) :
    False := by
  rcases mem_waitUntilReaped_trace pid signum sc ins cnt _ h with
    h' | h' | h' | h' | h' | h' | h' <;> simp_all

lemma mem_waitTargets {t : List Event} {q : Int} :
    q ∈ waitTargets t ↔ Event.waitpid q ∈ t := by
  unfold waitTargets
  rw [List.mem_filterMap]
  constructor
  · rintro ⟨e, he, hq⟩
    cases e <;> simp_all
  · intro h; exact ⟨_, h, rfl⟩

lemma waitTargets_append (a b : List Event) :
    waitTargets (a ++ b) = waitTargets a ++ waitTargets b := by
  unfold waitTargets; exact List.filterMap_append a b _

lemma waitTargets_flatMap (g : Int → List Event) (l : List Int) :
    waitTargets (l.flatMap g) = l.flatMap fun p => waitTargets (g p) := by
  induction l with
  | nil => rfl
  | cons a l ih => simp [List.flatMap_cons, waitTargets_append, ih]

/-- The trace of `stress_kill_and_wait` on an eligible pid: no warning, one
signal delivery, then the reap loop's trace. -/
lemma kw_trace_eligible {mypid pid : Int} (signum : Int) (sc : Bool) (ins : List ReapIn)
    (h : eligible mypid pid) :
    stress_kill_and_wait mypid pid signum sc ins =
      (Event.kill pid signum :: (waitUntilReaped pid signum sc 0 ins).1,
       KWOut.reap (waitUntilReaped pid signum sc 0 ins).2) := by
  obtain ⟨h1, h2⟩ := h
  have hne0 : pid ≠ 0 := by omega
  have hne1 : pid ≠ 1 := by omega
  have hle : ¬ pid ≤ 1 := by omega
  simp [stress_kill_and_wait, hne0, hne1, hle, h2]

lemma flatMap_if_filter {α : Type} (P : Int → Prop) [DecidablePred P]
    (g : Int → List α) (l : List Int) :
    (l.flatMap fun p => if P p then g p else []) =
      (l.filter fun p => decide (P p)).flatMap g := by
  induction l with
  | nil => rfl
  | cons a l ih =>
    by_cases h : P a <;> simp [h, ih]

lemma flatMap_congr_mem {α β : Type} {l : List α} {f g : α → List β}
    (h : ∀ a ∈ l, f a = g a) : l.flatMap f = l.flatMap g := by
  induction l with
  | nil => rfl
  | cons a l ih =>
    simp only [List.flatMap_cons, h a (List.mem_cons_self a l)]
    rw [ih fun a ha => h a (List.mem_cons_of_mem _ ha)]

/-- Every event of the kill phase of `stress_kill_and_wait_many` is a signal
delivery to an eligible pid. -/
lemma mem_killPhase {mypid signum : Int} {pids : List Int} {e : Event}
    (h : e ∈ (pids.flatMap fun p =>
      if eligible mypid p then [Event.kill p signum] else [])) :
    ∃ q, e = Event.kill q signum ∧ q ∈ pids ∧ eligible mypid q := by
  rcases List.mem_flatMap.1 h with ⟨p, hp, hm⟩
  by_cases hel : eligible mypid p
  · rw [if_pos hel] at hm; simp at hm; exact ⟨p, hm, hp, hel⟩
  · rw [if_neg hel] at hm; simp at hm

/-- Events of `stress_kill_and_wait` on an eligible pid: the signal delivery
or an event of the reap loop. -/
lemma mem_kw_trace_eligible {mypid x signum : Int} {sc : Bool}
    {ins : List ReapIn} {e : Event} (hel : eligible mypid x)
    (he : e ∈ (stress_kill_and_wait mypid x signum sc ins).1) :
    e = Event.kill x signum ∨ e ∈ (waitUntilReaped x signum sc 0 ins).1 := by
  rw [kw_trace_eligible signum sc ins hel] at he
  simpa using he

/-- Every event of the reap phase of `stress_kill_and_wait_many` belongs to
the kill-and-wait of some eligible pid of the list. -/
lemma mem_reapPhase {mypid signum : Int} {sc : Bool} {ins : Int → List ReapIn}
    {pids : List Int} {e : Event}
    (h : e ∈ pids.flatMap fun x =>
      if eligible mypid x then (stress_kill_and_wait mypid x signum sc (ins x)).1
      else []) :
    ∃ x, x ∈ pids ∧ eligible mypid x ∧
      (e = Event.kill x signum ∨ e ∈ (waitUntilReaped x signum sc 0 (ins x)).1) := by
  rcases List.mem_flatMap.1 h with ⟨x, hx, hm⟩
  by_cases hel : eligible mypid x
  · rw [if_pos hel] at hm
    exact ⟨x, hx, hel, mem_kw_trace_eligible hel hm⟩
  · rw [if_neg hel] at hm; simp at hm

/-! The claims. -/

set_option maxRecDepth 4000 in
/-- C1, counterexample: with 130 consecutive interrupted waits (EINTR) on a
live target while the stop decision is in force (`keep_stressing_flag()`
false), the reap loop of `stress_wait_until_reaped` does not invoke
`stress_killpid` exactly once, and the forced-kill diagnostic counter is not
incremented exactly once: the loop body at core-killpid.c:82-86 has no break,
so both happen on every iteration whose count exceeds 120. -/
theorem waitUntilReaped_130_eintr_not_forced_once :
    ¬ ((waitUntilReaped 5 15 true 0
          (List.replicate 130 ⟨some EINTR, none, false⟩)).1.count
            (Event.forcedKill 5) = 1 ∧
       (waitUntilReaped 5 15 true 0
          (List.replicate 130 ⟨some EINTR, none, false⟩)).1.count
            Event.forceCounter = 1) := by
  decide

set_option maxRecDepth 4000 in
/-- C1, amended: with 130 consecutive interrupted waits on a live target
while the stop decision is in force, `stress_wait_until_reaped` invokes the
last-resort `stress_killpid` on every iteration after the interruption
counter crosses the 120 threshold — ten times in total, incrementing the
forced-kill diagnostic counter ten times — and it does not give up: the loop
is still waiting when the interruptions stop.  Through the first 120
interruptions no forced kill happens at all. -/
theorem waitUntilReaped_130_eintr_forced_kill_each_late_iteration :
    (waitUntilReaped 5 15 true 0
        (List.replicate 130 ⟨some EINTR, none, false⟩)).1.count
          (Event.forcedKill 5) = 10 ∧
    (waitUntilReaped 5 15 true 0
        (List.replicate 130 ⟨some EINTR, none, false⟩)).1.count
          Event.forceCounter = 10 ∧
    (waitUntilReaped 5 15 true 0
        (List.replicate 120 ⟨some EINTR, none, false⟩)).1.count
          (Event.forcedKill 5) = 0 ∧
    (waitUntilReaped 5 15 true 0
        (List.replicate 130 ⟨some EINTR, none, false⟩)).2 = ReapOut.fuelOut := by
  exact ⟨by decide, by decide, by decide, by decide⟩

/-- C3: for every pid in {0, 1, caller's own pid}, `stress_kill_and_wait`
logs the warning, delivers no signal, and returns without entering the reap
loop: its whole behaviour is the single warning event and the guarded
return. -/
theorem stress_kill_and_wait_protected (mypid pid signum : Int) (sc : Bool)
    (ins : List ReapIn) (h : pid = 0 ∨ pid = 1 ∨ pid = mypid) :
    stress_kill_and_wait mypid pid signum sc ins =
      ([Event.warn pid], KWOut.guarded) := by
  unfold stress_kill_and_wait
  rcases h with h | h | h
  · subst h; simp
  · subst h; simp
  · subst h; simp

/-- C3, witness: killing one's own pid (mypid = pid = 42) only warns. -/
theorem stress_kill_and_wait_protected_witness :
    stress_kill_and_wait 42 42 15 true [] = ([Event.warn 42], KWOut.guarded) :=
  stress_kill_and_wait_protected 42 42 15 true [] (Or.inr (Or.inr rfl))

/-- C5: whenever the blocking wait is interrupted (EINTR) and the liveness
probe with the no-op signal fails with ESRCH, the reap loop returns
immediately with outcome `gone` — the target is treated as successfully
reaped, no further events are emitted, and no error is raised. -/
theorem waitUntilReaped_probe_esrch_returns (pid signum : Int) (sc : Bool)
    (cnt : Nat) (i : ReapIn) (rest : List ReapIn)
    (hw : i.waitErr = some EINTR) (hp : i.probeErr = some ESRCH) :
    waitUntilReaped pid signum sc cnt (i :: rest) =
      ([Event.waitpid pid, Event.probe pid], ReapOut.gone) := by
  simp [waitUntilReaped, hw, hp]

/-- C5, witness: a concrete interrupted wait whose probe reports ESRCH. -/
theorem waitUntilReaped_probe_esrch_returns_witness :
    waitUntilReaped 5 15 true 0
        [⟨some EINTR, some ESRCH, true⟩, ⟨none, none, true⟩] =
      ([Event.waitpid 5, Event.probe 5], ReapOut.gone) :=
  waitUntilReaped_probe_esrch_returns 5 15 true 0 _ _ rfl rfl

/-- C6: `stress_killpid` opens the pidfd before sending SIGKILL (trace
positions 0 and 1), calls `shim_process_mrelease` exactly when the kill
succeeded and the pidfd was valid, and returns the kill's return value with
the kill's errno preserved, whatever errno the release and close calls would
leave behind. -/
theorem stress_killpid_order_and_errno (pid : Int) (inp : KillpidIn) :
    (stress_killpid pid inp).trace.get? 0 = some (Event.pidfdOpen pid) ∧
    (stress_killpid pid inp).trace.get? 1 = some (Event.sigkill pid) ∧
    (Event.mrelease ∈ (stress_killpid pid inp).trace ↔
       0 ≤ inp.pidfd ∧ inp.killRet = 0) ∧
    (stress_killpid pid inp).ret = inp.killRet ∧
    (stress_killpid pid inp).errno = inp.killErrno := by
  unfold stress_killpid
  by_cases h : 0 ≤ inp.pidfd
  · by_cases h2 : inp.killRet = 0 <;> simp [h, h2]
  · simp [h]

/-- C9: calling `stress_kill_and_wait` on an eligible pid that is already
reaped does not block and raises no error: the one blocking wait fails with
an errno other than EINTR (here the OS result for an already-reaped target),
the loop breaks immediately, and the call returns after a single signal
delivery and a single wait. -/
theorem stress_kill_and_wait_already_reaped (mypid pid signum : Int)
    (sc : Bool) (i : ReapIn) (rest : List ReapIn) (e : Nat)
    (h1 : 1 < pid) (h2 : pid ≠ mypid) (hw : i.waitErr = some e)
    (he : e ≠ EINTR) :
    stress_kill_and_wait mypid pid signum sc (i :: rest) =
      ([Event.kill pid signum, Event.waitpid pid],
       KWOut.reap ReapOut.resolved) := by
  rw [kw_trace_eligible signum sc _ ⟨h1, h2⟩]
  simp [waitUntilReaped, hw, he]

/-- C9, witness: a second kill-and-wait on pid 5 whose wait fails with
ECHILD returns immediately. -/
theorem stress_kill_and_wait_already_reaped_witness :
    stress_kill_and_wait 2 5 15 false [⟨some ECHILD, none, true⟩] =
      ([Event.kill 5 15, Event.waitpid 5], KWOut.reap ReapOut.resolved) :=
  stress_kill_and_wait_already_reaped 2 5 15 false _ _ ECHILD
    (by decide) (by decide) rfl (by decide)

/-- C10: for a negative pid (a process-group address for the OS kill
primitive) `stress_kill_and_wait` returns without delivering any signal and
without entering the reap loop, and — unlike for pids 0, 1 and the caller's
own pid — without logging any warning: the trace is empty. -/
theorem stress_kill_and_wait_negative_pid (mypid pid signum : Int) (sc : Bool)
    (ins : List ReapIn) (hneg : pid < 0) (hmy : 0 < mypid) :
    stress_kill_and_wait mypid pid signum sc ins = ([], KWOut.guarded) := by
  have h0 : pid ≠ 0 := by omega
  have h1 : pid ≠ 1 := by omega
  have h2 : pid ≠ mypid := by omega
  have hle : pid ≤ 1 := by omega
  simp [stress_kill_and_wait, h0, h1, h2, hle]

/-- C10, witness: pid -5 with caller pid 42 produces no event at all. -/
theorem stress_kill_and_wait_negative_pid_witness :
    stress_kill_and_wait 42 (-5) 15 true [⟨none, none, true⟩] =
      ([], KWOut.guarded) :=
  stress_kill_and_wait_negative_pid 42 (-5) 15 true _ (by decide) (by decide)

/-- C2: in `stress_kill_and_wait_many` every eligible pid of the list is
signalled (at some trace index) strictly before any blocking reap call, and
the reap phase then works through the eligible pids in the original list
order: the sequence of reap targets is the concatenation, eligible pid by
eligible pid in list order, of each pid's own block of waits. -/
theorem stress_kill_and_wait_many_signal_before_reap
    (mypid signum : Int) (sc : Bool) (ins : Int → List ReapIn)
    (pids : List Int) (p : Int) (hp : p ∈ pids) (h1 : 1 < p) (h2 : p ≠ mypid) :
    (∃ i, (stress_kill_and_wait_many mypid pids signum sc ins).get? i =
            some (Event.kill p signum) ∧
          ∀ j q, (stress_kill_and_wait_many mypid pids signum sc ins).get? j =
            some (Event.waitpid q) → i < j) ∧
    waitTargets (stress_kill_and_wait_many mypid pids signum sc ins) =
      (pids.filter fun x => decide (eligible mypid x)).flatMap fun x =>
        List.replicate
          (waitTargets (stress_kill_and_wait mypid x signum sc (ins x)).1).length
          x := by
  have hT : stress_kill_and_wait_many mypid pids signum sc ins =
      (pids.flatMap fun x =>
        if eligible mypid x then [Event.kill x signum] else []) ++
      (pids.flatMap fun x =>
        if eligible mypid x then (stress_kill_and_wait mypid x signum sc (ins x)).1
        else []) := rfl
  constructor
  · have hmem : Event.kill p signum ∈
        pids.flatMap fun x =>
          if eligible mypid x then [Event.kill x signum] else [] :=
      List.mem_flatMap.2 ⟨p, hp, by rw [if_pos ⟨h1, h2⟩]; exact List.mem_singleton.2 rfl⟩
    obtain ⟨i, hi⟩ := List.mem_iff_get?.1 hmem
    have hiK : i < (pids.flatMap fun x =>
        if eligible mypid x then [Event.kill x signum] else []).length := by
      by_contra hlt
      push_neg at hlt
      rw [List.get?_eq_none.2 hlt] at hi
      exact Option.noConfusion hi
    refine ⟨i, ?_, ?_⟩
    · rw [hT, List.get?_append hiK]; exact hi
    · intro j q hj
      by_contra hji
      push_neg at hji
      have hjK : j < (pids.flatMap fun x =>
          if eligible mypid x then [Event.kill x signum] else []).length :=
        lt_of_le_of_lt hji hiK
      rw [hT, List.get?_append hjK] at hj
      rcases mem_killPhase (List.get?_mem hj) with ⟨r, hr, -, -⟩
      exact Event.noConfusion hr
  · rw [hT, waitTargets_append]
    have hKnil : waitTargets (pids.flatMap fun x =>
        if eligible mypid x then [Event.kill x signum] else []) = [] := by
      unfold waitTargets
      rw [List.filterMap_eq_nil]
      intro e he
      rcases mem_killPhase he with ⟨q, hq, -, -⟩
      subst hq; rfl
    rw [hKnil, List.nil_append, waitTargets_flatMap]
    have hcomm : (pids.flatMap fun x =>
        waitTargets (if eligible mypid x
          then (stress_kill_and_wait mypid x signum sc (ins x)).1 else [])) =
        pids.flatMap fun x =>
          if eligible mypid x
          then waitTargets (stress_kill_and_wait mypid x signum sc (ins x)).1
          else [] := by
      refine flatMap_congr_mem fun a _ => ?_
      by_cases h : eligible mypid a <;> simp [h, waitTargets]
    rw [hcomm, flatMap_if_filter (eligible mypid)
      (fun x => waitTargets (stress_kill_and_wait mypid x signum sc (ins x)).1) pids]
    refine flatMap_congr_mem fun a ha => ?_
    have hel : eligible mypid a := of_decide_eq_true (List.mem_filter.1 ha).2
    have htr : (stress_kill_and_wait mypid a signum sc (ins a)).1 =
        Event.kill a signum :: (waitUntilReaped a signum sc 0 (ins a)).1 := by
      rw [kw_trace_eligible signum sc (ins a) hel]
    rw [htr]
    have hstep : waitTargets (Event.kill a signum ::
        (waitUntilReaped a signum sc 0 (ins a)).1) =
        waitTargets (waitUntilReaped a signum sc 0 (ins a)).1 := by
      unfold waitTargets
      rw [List.filterMap_cons_none]
      rfl
    rw [hstep]
    exact List.eq_replicate_of_mem fun b hb =>
      waitpid_mem_waitUntilReaped (mem_waitTargets.1 hb)

/-- C2, witness: pids [5, 7] with caller pid 2, each wait failing with
ECHILD: pid 5 is signalled before any reap, and the reap targets follow the
list order. -/
theorem stress_kill_and_wait_many_signal_before_reap_witness :
    (∃ i, (stress_kill_and_wait_many 2 [5, 7] 9 true
             (fun _ => [⟨some ECHILD, none, true⟩])).get? i =
             some (Event.kill 5 9) ∧
          ∀ j q, (stress_kill_and_wait_many 2 [5, 7] 9 true
             (fun _ => [⟨some ECHILD, none, true⟩])).get? j =
             some (Event.waitpid q) → i < j) ∧
    waitTargets (stress_kill_and_wait_many 2 [5, 7] 9 true
        (fun _ => [⟨some ECHILD, none, true⟩])) =
      (([5, 7] : List Int).filter fun x => decide (eligible 2 x)).flatMap fun x =>
        List.replicate
          (waitTargets (stress_kill_and_wait 2 x 9 true
            [⟨some ECHILD, none, true⟩]).1).length x :=
  stress_kill_and_wait_many_signal_before_reap 2 9 true
    (fun _ => [⟨some ECHILD, none, true⟩]) [5, 7] 5
    (by simp) (by decide) (by decide)

/-- C4, counterexample: a pid list consisting only of protected values
(0, 1, and the caller's own pid 100) produces no event whatsoever in
`stress_kill_and_wait_many` — in particular no warning is logged for them,
contrary to the claim that they are "always logged as a no-op attempt". -/
theorem stress_kill_and_wait_many_protected_silent_cex :
    stress_kill_and_wait_many 100 [0, 1, 100] 9 true (fun _ => []) = [] ∧
    Event.warn 0 ∉ stress_kill_and_wait_many 100 [0, 1, 100] 9 true
      (fun _ => []) := by
  exact ⟨by decide, by decide⟩

/-- C4, amended: every pid of the list whose value is 0, 1, or the caller's
own pid is excluded from both phases of `stress_kill_and_wait_many` and is
never signalled — but silently: no warning is logged for it (the function
emits no warn event at all).  Every signal and every reap in the trace
targets an eligible pid. -/
theorem stress_kill_and_wait_many_excludes_protected
    (mypid signum : Int) (sc : Bool) (ins : Int → List ReapIn)
    (pids : List Int) :
    (∀ q s, Event.kill q s ∈ stress_kill_and_wait_many mypid pids signum sc ins →
       1 < q ∧ q ≠ mypid) ∧
    (∀ q, Event.waitpid q ∈ stress_kill_and_wait_many mypid pids signum sc ins →
       1 < q ∧ q ≠ mypid) ∧
    (∀ q, Event.warn q ∉ stress_kill_and_wait_many mypid pids signum sc ins) := by
  refine ⟨fun q s hq => ?_, fun q hq => ?_, fun q hq => ?_⟩ <;>
    rcases List.mem_append.1 hq with h | h
  · rcases mem_killPhase h with ⟨r, hr, -, hel⟩
    injection hr with hq hs
    subst hq
    exact hel
  · rcases mem_reapPhase h with ⟨x, -, hel, hx | hx⟩
    · injection hx with hq hs
      subst hq
      exact hel
    · obtain ⟨rfl, -⟩ := kill_mem_waitUntilReaped hx
      exact hel
  · rcases mem_killPhase h with ⟨r, hr, -, -⟩
    exact Event.noConfusion hr
  · rcases mem_reapPhase h with ⟨x, -, hel, hx | hx⟩
    · exact Event.noConfusion hx
    · rw [waitpid_mem_waitUntilReaped hx]
      exact hel
  · rcases mem_killPhase h with ⟨r, hr, -, -⟩
    exact Event.noConfusion hr
  · rcases mem_reapPhase h with ⟨x, -, -, hx | hx⟩
    · exact Event.noConfusion hx
    · exact warn_not_mem_waitUntilReaped hx

/-- C4, witness: from the amended theorem at a concrete list, the target of
the one delivered signal is eligible. -/
theorem stress_kill_and_wait_many_excludes_protected_witness :
    (1 : Int) < 5 ∧ (5 : Int) ≠ 100 :=
  (stress_kill_and_wait_many_excludes_protected 100 9 true
    (fun _ => []) [0, 5]).1 5 9 (by decide)

/-- C7, counterexample: in the `stress_udp` fork loop a transient EAGAIN
failure arriving once `keep_stressing_flag()` has become false is not
abandoned cleanly with success and no diagnostic — the code emits a
`pr_fail` diagnostic and returns `EXIT_FAILURE` carrying the errno. -/
theorem udpForkLoop_eagain_stopped_fails_cex :
    udpForkLoop [⟨-1, EAGAIN, false⟩] =
      ([Event.forkCall, Event.prFail], SpawnOut.failed EAGAIN) ∧
    Event.prFail ∈ (udpForkLoop [⟨-1, EAGAIN, false⟩]).1 := by
  exact ⟨by decide, by decide⟩

/-- C7, amended: transient EAGAIN fork failures are retried while the
continue flag holds, and two transient failures followed by a success yield
the parent branch with the valid child pid, three fork calls and no failure
diagnostic; a non-EAGAIN failure is fatal in the udp loop and reported with
the OS errno; and when the continue flag has become false, the rawpkt loop
abandons the spawn cleanly (success, no diagnostic) while the udp loop
reports even an EAGAIN failure as fatal. -/
theorem spawn_retry_transient (e : Nat) (rest : List ForkIn)
    (he : e ≠ EAGAIN) :
    udpForkLoop (⟨-1, EAGAIN, true⟩ :: ⟨-1, EAGAIN, true⟩ :: ⟨7, 0, true⟩ :: rest) =
      ([Event.forkCall, Event.forkCall, Event.forkCall], SpawnOut.parent 7) ∧
    udpForkLoop (⟨-1, e, true⟩ :: rest) =
      (Event.forkCall :: [Event.prFail], SpawnOut.failed e) ∧
    udpForkLoop (⟨-1, EAGAIN, false⟩ :: rest) =
      (Event.forkCall :: [Event.prFail], SpawnOut.failed EAGAIN) ∧
    rawpktForkLoop (⟨-1, EAGAIN, false⟩ :: rest) =
      ([Event.forkCall], SpawnOut.cleanAbort) := by
  refine ⟨?_, ?_, ?_, ?_⟩
  · simp [udpForkLoop]
  · simp [udpForkLoop, he]
  · simp [udpForkLoop]
  · simp [rawpktForkLoop, stress_redo_fork]

/-- C7, witness: the amended behaviour at errno ENOMEM with no further fork
attempts. -/
theorem spawn_retry_transient_witness :
    udpForkLoop [⟨-1, EAGAIN, true⟩, ⟨-1, EAGAIN, true⟩, ⟨7, 0, true⟩] =
      ([Event.forkCall, Event.forkCall, Event.forkCall], SpawnOut.parent 7) ∧
    udpForkLoop [⟨-1, ENOMEM, true⟩] =
      (Event.forkCall :: [Event.prFail], SpawnOut.failed ENOMEM) ∧
    udpForkLoop [⟨-1, EAGAIN, false⟩] =
      (Event.forkCall :: [Event.prFail], SpawnOut.failed EAGAIN) ∧
    rawpktForkLoop [⟨-1, EAGAIN, false⟩] =
      ([Event.forkCall], SpawnOut.cleanAbort) :=
  spawn_retry_transient ENOMEM [] (by decide)

/-- C8: in each modelled child branch (pipe, flock, udp client) the very
first action after process creation is installing the parent-death safety
net (`stress_parent_died_alarm`), and the payload work comes strictly later;
in the udp fork loop the child's actions directly follow the fork call. -/
theorem child_branch_installs_parent_death_net_first :
    pipeChildActions.head? = some Event.parentDiedAlarm ∧
    flockChildActions.head? = some Event.parentDiedAlarm ∧
    udpClientActions.head? = some Event.parentDiedAlarm ∧
    (udpForkLoop [⟨0, 0, true⟩]).1 = Event.forkCall :: udpClientActions ∧
    Event.payload ∈ pipeChildActions.tail ∧
    Event.payload ∈ flockChildActions.tail ∧
    Event.payload ∈ udpClientActions.tail := by
  exact ⟨rfl, rfl, rfl, by decide, by decide, by decide, by decide⟩

end StressNG
